import Mathlib

/-!
Verification of the render-job orchestration subsystem of the facelessflow
repository: the webhook receiver (src/app/api/webhook/remotion/route.ts),
the status / reconciliation endpoint
(src/app/api/render/[projectId]/status/route.ts, first variant in the file),
and the split-render dispatcher
(src/app/api/render/[projectId]/route.ts, split variant, and
src/unnamed/part_003).

The TypeScript handlers are shallowly embedded as pure state transformers:
the Supabase-persisted project row becomes an explicit `Project` value that
each handler maps to a new value together with its HTTP response, and the
external rendering service (`getRenderProgress`, `renderMediaOnLambda`) is
abstracted as an environment function supplied to the handler.  JavaScript
numbers that hold progress fractions and durations are modelled as `ℚ`;
frame counts are `ℕ`.  JavaScript truthiness of optional strings
(`undefined` and `""` are falsy) is modelled by `truthyStr`.
-/

/-- Per-part status, from `src/types/index.ts` line 50:
`status: 'idle' | 'rendering' | 'done' | 'error'`. -/
inductive PartStatus
  | idle
  | rendering
  | done
  | error
deriving DecidableEq, Repr

/-- Project-level status, from `src/types/index.ts` line 5:
`status: 'draft' | 'generating' | 'rendering' | 'done' | 'error'`. -/
inductive ProjStatus
  | draft
  | generating
  | rendering
  | done
  | error
deriving DecidableEq, Repr

/-- One render part, from `src/types/index.ts` lines 47-57.  Optional
fields of the TypeScript object are `Option`s. -/
structure RenderPart where
  id : String
  part : Nat
  status : PartStatus
  bucketName : Option String
  renderId : Option String
  url : Option String
  progress : Option ℚ
  frameCount : Option Nat
  errorMsg : Option String
deriving DecidableEq, Repr

/-- The persisted project row, flattening the `settings` JSON blob fields
that the orchestration code reads or writes (`settings.renderParts`,
`settings.renderId`, `settings.bucketName`).  `renderParts = some _`
corresponds to the JS truthiness test `project.settings.renderParts`
(arrays, including empty ones, are truthy). -/
structure Project where
  status : ProjStatus
  video_url : Option String
  renderId : Option String
  bucketName : Option String
  renderParts : Option (List RenderPart)
deriving DecidableEq, Repr

/-- JavaScript truthiness of an optional string: `undefined` and the empty
string are falsy, every other string is truthy. -/
def truthyStr : Option String → Bool
  | none => false
  | some s => s != ""

/-- JavaScript `Array.prototype.findIndex`, returning `none` instead of
`-1` when no element satisfies the predicate. -/
def findIndex (p : α → Bool) : List α → Option Nat
  | [] => none
  | x :: xs => if p x then some 0 else (findIndex p xs).map (· + 1)

/-- In-place update of the element at one index, as the webhook handler
does with `parts[partIndex].status = ...`; indices past the end leave the
list unchanged. -/
def modifyAt (f : α → α) : Nat → List α → List α
  | _, [] => []
  | 0, x :: xs => f x :: xs
  | n + 1, x :: xs => x :: modifyAt f n xs

/-- `Math.ceil(a / b)` on natural numbers. -/
def ceilDiv (a b : Nat) : Nat := (a + b - 1) / b

/-! ### Webhook receiver — src/app/api/webhook/remotion/route.ts -/

/-- Webhook event type, from `body.type` (lines 35 and 82); `other` stands
for any unrecognized type, which the handler ignores. -/
inductive WebhookType
  | success
  | error
  | timeout
  | other
deriving DecidableEq, Repr

/-- The fields of `body.payload` that the handler reads (lines 36 and 83).
`projectId` is `inputProps?.projectId` and may be absent. -/
structure WebhookPayload where
  renderId : String
  outBucket : String
  outKey : String
  errorMessage : String
  projectId : Option String
deriving DecidableEq, Repr

/-- A parsed webhook request body. -/
structure WebhookBody where
  type : WebhookType
  payload : WebhookPayload
deriving DecidableEq, Repr

/-- The response of the webhook endpoint: HTTP status, message, and
whether `{ received: true }` was returned. -/
structure WebhookResponse where
  httpStatus : Nat
  message : String
  received : Bool
deriving DecidableEq, Repr

/-- Line 38: `https://${outBucket}.s3.${region}.amazonaws.com/${outKey}`. -/
def webhookVideoUrl (region outBucket outKey : String) : String :=
  "https://" ++ outBucket ++ ".s3." ++ region ++ ".amazonaws.com/" ++ outKey

/-- Lines 51-52: `parts[partIndex].status = 'done'; parts[partIndex].url =
videoUrl;`. -/
def successPart (u : String) (q : RenderPart) : RenderPart :=
  { q with status := PartStatus.done, url := some u }

/-- Line 94: `parts[partIndex].status = 'error';`. -/
def failPart (q : RenderPart) : RenderPart :=
  { q with status := PartStatus.error }

/-- The `success` branch of the webhook handler (lines 35-81), as a map on
the persisted project row (`db = none` means no row matches the id, in
which case the update touches no row). -/
def applySuccess (region : String) (pay : WebhookPayload) (db : Option Project) :
    Option Project :=
  match pay.projectId with
  | none => db
  | some _ =>
    match db with
    | none => db
    | some project =>
      let u := webhookVideoUrl region pay.outBucket pay.outKey
      match project.renderParts with
      | some parts =>
        -- MULTI-PART LOGIC (lines 45-69)
        match findIndex (fun q => q.renderId == some pay.renderId) parts with
        | some idx =>
          let parts' := modifyAt (successPart u) idx parts
          let allDone := parts'.all (fun q => q.status == PartStatus.done)
          some { project with
                 renderParts := some parts',
                 status := if allDone then ProjStatus.done else project.status }
        | none => some project
      | none =>
        -- SINGLE PART LOGIC (lines 70-80)
        some { project with status := ProjStatus.done, video_url := some u }

/-- The `error` / `timeout` branch of the webhook handler (lines 82-109). -/
def applyFailure (pay : WebhookPayload) (db : Option Project) : Option Project :=
  match pay.projectId with
  | none => db
  | some _ =>
    match db with
    | none => db
    | some project =>
      match project.renderParts with
      | some parts =>
        -- MULTI-PART ERROR (lines 89-100)
        match findIndex (fun q => q.renderId == some pay.renderId) parts with
        | some idx =>
          some { project with
                 status := ProjStatus.error,
                 renderParts := some (modifyAt failPart idx parts) }
        | none => some project
      | none =>
        -- SINGLE PART ERROR (lines 101-108)
        some { project with status := ProjStatus.error }

/-- The webhook endpoint `POST` (lines 6-113).  `sigPresent` is whether the
`x-remotion-signature` header is present, `sigValid` whether
`validateWebhookSignature` accepts it against the shared secret. -/
def webhookPOST (sigPresent sigValid : Bool) (region : String)
    (body : WebhookBody) (db : Option Project) :
    WebhookResponse × Option Project :=
  match sigPresent, sigValid with
  | false, _ => (⟨401, "Missing signature", false⟩, db)
  | true, false => (⟨401, "Unauthorized", false⟩, db)
  | true, true =>
    match body.type with
    | WebhookType.success => (⟨200, "", true⟩, applySuccess region body.payload db)
    | WebhookType.error => (⟨200, "", true⟩, applyFailure body.payload db)
    | WebhookType.timeout => (⟨200, "", true⟩, applyFailure body.payload db)
    | WebhookType.other => (⟨200, "", true⟩, db)

/-- Observer: the list of part statuses stored on a project row, used to
state counterexamples compactly. -/
def partStatuses (db : Option Project) : Option (List PartStatus) :=
  (db.bind Project.renderParts).map (List.map RenderPart.status)

/-! ### Status / reconciliation endpoint —
src/app/api/render/[projectId]/status/route.ts (lines 1-194, the variant
the file starts with) -/

/-- The fields of a `getRenderProgress` result that the endpoint reads. -/
structure PollProgress where
  overallProgress : ℚ
  framesRendered : Nat
  lambdasInvoked : Nat
  outputFile : Option String
  fatalErrorEncountered : Bool
deriving DecidableEq, Repr

/-- The external rendering service as seen by the poll path: for a render
id, either a progress report or `none` when `getRenderProgress` throws. -/
abbrev PollEnv := String → Option PollProgress

/-- Line 71: `https://${part.bucketName}.s3.${region}.amazonaws.com/renders/${part.renderId}/out.mp4`
(an absent bucket name interpolates as the string `undefined` in JS). -/
def partVideoUrl (region : String) (bucket : Option String) (rid : String) : String :=
  "https://" ++ bucket.getD "undefined" ++ ".s3." ++ region ++
    ".amazonaws.com/renders/" ++ rid ++ "/out.mp4"

/-- The result of one iteration of the per-part loop (lines 45-93): the
possibly-updated part, its `partProgress` contribution, whether it set
`hasUpdates`, and the render ids it queried the rendering service for. -/
structure PartPoll where
  part : RenderPart
  progress : ℚ
  updated : Bool
  queried : List String
deriving DecidableEq, Repr

/-- The body of the `for (const part of parts)` loop, lines 45-93.  A part
that is neither terminal nor has a truthy `renderId` falls through every
branch: it is not queried and keeps its status. -/
def pollPart (env : PollEnv) (region : String) (p : RenderPart) : PartPoll :=
  if p.status = PartStatus.done then ⟨p, 1, false, []⟩
  else if p.status = PartStatus.error then ⟨p, 0, false, []⟩
  else if truthyStr p.renderId then
    let rid := p.renderId.getD ""
    match env rid with
    | none => ⟨p, 0, false, [rid]⟩
    | some pr =>
      if 1 ≤ pr.overallProgress ∨ truthyStr pr.outputFile then
        ⟨{ p with status := PartStatus.done,
                  url := some (partVideoUrl region p.bucketName rid) },
         pr.overallProgress, true, [rid]⟩
      else if pr.fatalErrorEncountered then
        ⟨{ p with status := PartStatus.error }, pr.overallProgress, true, [rid]⟩
      else ⟨p, pr.overallProgress, false, [rid]⟩
  else ⟨p, 0, false, []⟩

/-- The poll-path response: HTTP status, `progress`, `status`, and the
optional error message; the diagnostic `details` are omitted. -/
structure StatusResponse where
  httpStatus : Nat
  progress : ℚ
  status : ProjStatus
  errorMsg : Option String
deriving DecidableEq, Repr

/-- The legacy single-render branch, lines 133-193.  `envBucket` models
`process.env.REMOTION_AWS_BUCKET` (line 135's `||` default). -/
def legacyStatus (env : PollEnv) (region : String) (envBucket : Option String)
    (project : Project) : StatusResponse × Project :=
  if truthyStr project.renderId then
    let rid := project.renderId.getD ""
    let bucket := if truthyStr project.bucketName then project.bucketName else envBucket
    match env rid with
    | none =>
      -- lines 185-192: a thrown progress query marks the project error
      (⟨200, 0, ProjStatus.error, some "progress query failed"⟩,
       { project with status := ProjStatus.error })
    | some pr =>
      if 1 ≤ pr.overallProgress ∨ truthyStr pr.outputFile then
        let u := partVideoUrl region bucket rid
        if project.status ≠ ProjStatus.done then
          (⟨200, 1, ProjStatus.done, none⟩,
           { project with status := ProjStatus.done, video_url := some u })
        else (⟨200, 1, ProjStatus.done, none⟩, project)
      else (⟨200, pr.overallProgress, project.status, none⟩, project)
  else (⟨200, 0, project.status, none⟩, project)

/-- The status endpoint `GET` (lines 8-194) for an existing project row;
returns the response and the persisted project after the pass. -/
def statusGET (env : PollEnv) (region : String) (envBucket : Option String)
    (project : Project) : StatusResponse × Project :=
  if project.status = ProjStatus.done then
    (⟨200, 1, ProjStatus.done, none⟩, project)
  else if project.status = ProjStatus.error then
    (⟨200, 0, ProjStatus.error, some "Rendering failed"⟩, project)
  else
    match project.renderParts with
    | some parts =>
      let polls := parts.map (pollPart env region)
      let newParts := polls.map (fun x => x.part)
      let totalProgress := (polls.map (fun x => x.progress)).sum
      let hasUpdates := polls.any (fun x => x.updated)
      let project' :=
        if hasUpdates then
          let allDone := newParts.all (fun q => q.status == PartStatus.done)
          { project with
            renderParts := some newParts,
            status := if allDone then ProjStatus.done else project.status }
        else project
      let avg := if 0 < parts.length then totalProgress / (parts.length : ℚ) else 0
      (⟨200, avg, project.status, none⟩, project')
    | none => legacyStatus env region envBucket project

/-! ### Split-render dispatcher —
src/app/api/render/[projectId]/route.ts (the split variant, lines
116-326 of the file) and src/unnamed/part_003 -/

/-- A scene as the dispatcher sees it: only `duration` (seconds, possibly
milliseconds for legacy rows) matters for frame computation; the scene
content is opaque to the orchestration logic. -/
structure Scene where
  duration : Option ℚ
deriving DecidableEq, Repr

/-- Frames of one scene, lines 174-178 / 203-207:
`let d = scene.duration || 5; if (d > 300) d = d / 1000;
acc + Math.ceil(d * 30)` (a duration of `0` is falsy in JS and also
defaults to 5). -/
def sceneFrames (s : Scene) : Nat :=
  let d0 : ℚ := match s.duration with
    | none => 5
    | some q => if q = 0 then 5 else q
  let d : ℚ := if 300 < d0 then d0 / 1000 else d0
  (Int.ceil (d * 30)).toNat

/-- Total frames of one chunk, lines 203-207 (no `|| 300` fallback on the
per-chunk sum). -/
def chunkTotalFrames (c : List Scene) : Nat := (c.map sceneFrames).sum

/-- The chunking loop, lines 190-193:
`for (let i = 0; i < scenes.length; i += MAX_SCENES)
   chunks.push(scenes.slice(i, i + MAX_SCENES));`.
`MAX_SCENES` is a positive constant in the source (300 in the route, 200
in part_003); the `M = 0` guard only keeps the function total. -/
def chunkScenes (M : Nat) (l : List α) : List (List α) :=
  match l with
  | [] => []
  | x :: xs =>
    if M = 0 then []
    else (x :: xs).take M :: chunkScenes M ((x :: xs).drop M)
termination_by l.length
decreasing_by
  simp only [List.length_drop, List.length_cons]
  omega

/-- The per-job frame-chunk size, lines 266-274 of the route (and lines
209-211 for chunks, lines 110-112 of part_003):
`Math.max(60, Math.ceil(totalFrames / 200), Math.ceil(totalFrames / TARGET_CONCURRENCY))`. -/
def framesPerLambda (targetConcurrency totalFrames : Nat) : Nat :=
  max 60 (max (ceilDiv totalFrames 200) (ceilDiv totalFrames targetConcurrency))

/-- The fields of a `renderMediaOnLambda` result that the dispatcher
persists. -/
structure SubmitOk where
  renderId : String
  bucketName : String
deriving DecidableEq, Repr

/-- The response of the trigger endpoint. -/
structure RenderResponse where
  httpStatus : Nat
  success : Bool
  errorMsg : Option String
deriving DecidableEq, Repr

/-- The `RenderPart` object literal built for chunk `i` (0-based), lines
238-245. -/
def mkPart (i : Nat) (c : List Scene) (r : SubmitOk) : RenderPart :=
  { id := "part-" ++ toString (i + 1)
    part := i + 1
    status := PartStatus.rendering
    bucketName := some r.bucketName
    renderId := some r.renderId
    url := none
    progress := none
    frameCount := some (chunkTotalFrames c)
    errorMsg := none }

/-- `await Promise.all(renderPromises)` over the per-chunk submissions
(lines 198-235): succeeds with every part exactly when every submission
succeeds, and rejects with a submission error as soon as any submission
fails (the submissions are concurrent and have no per-part persistence;
which rejection wins the race does not affect the persisted state, so the
first in chunk order is taken). -/
def promiseAll (submit : Nat → Except String SubmitOk) :
    Nat → List (List Scene) → Except String (List RenderPart)
  | _, [] => Except.ok []
  | i, c :: rest =>
    match submit i with
    | Except.error e => Except.error e
    | Except.ok r =>
      match promiseAll submit (i + 1) rest with
      | Except.error e => Except.error e
      | Except.ok ps => Except.ok (mkPart i c r :: ps)

/-- The split branch of the trigger endpoint, lines 186-260, together with
its `catch` (lines 320-325): on success every part is persisted with
`status: 'rendering'` in one write; if any submission fails the `catch`
sets the project status to `error` and writes nothing else. -/
def dispatchSplit (submit : Nat → Except String SubmitOk) (scenes : List Scene)
    (maxScenes : Nat) (project : Project) : RenderResponse × Project :=
  let chunks := chunkScenes maxScenes scenes
  match promiseAll submit 0 chunks with
  | Except.ok renderParts =>
    (⟨200, true, none⟩,
     { project with status := ProjStatus.rendering, renderParts := some renderParts })
  | Except.error e =>
    (⟨500, false, some e⟩, { project with status := ProjStatus.error })

/-- Definition following the spec's words for the Aggregator (§4.5 / §8):
a `done` part contributes `1`, an `error` part `0`, and a part still in
flight its fractional progress as reported by the rendering service. -/
def claimPartProgress (env : PollEnv) (p : RenderPart) : ℚ :=
  match p.status with
  | PartStatus.done => 1
  | PartStatus.error => 0
  | _ =>
    match env (p.renderId.getD "") with
    | some pr => pr.overallProgress
    | none => 0

/-! ### Concrete fixtures used by witnesses and counterexamples -/

/-- A part that has completed (as the webhook success path leaves it). -/
def partDoneR1 : RenderPart :=
  ⟨"part-1", 1, PartStatus.done, some "bkt", some "r1", some "u1", none, none, none⟩

/-- A second completed part. -/
def partDoneR1b : RenderPart :=
  ⟨"part-2", 2, PartStatus.done, some "bkt", some "r1b", some "u2", none, none, none⟩

/-- A part still rendering with job handle r2. -/
def partRendR2 : RenderPart :=
  ⟨"part-2", 2, PartStatus.rendering, some "bkt", some "r2", none, none, none, none⟩

/-- A part still rendering with job handle r1. -/
def partRendR1 : RenderPart :=
  ⟨"part-1", 1, PartStatus.rendering, some "bkt", some "r1", none, none, none, none⟩

/-- A part still rendering with job handle r3. -/
def partRendR3 : RenderPart :=
  ⟨"part-3", 3, PartStatus.rendering, some "bkt", some "r3", none, none, none, none⟩

/-- A zombie: recorded as rendering but with no job handle. -/
def partZombie : RenderPart :=
  ⟨"part-1", 1, PartStatus.rendering, none, none, none, none, none, none⟩

/-- A split project with one in-flight part. -/
def projSingleRendering : Project :=
  ⟨ProjStatus.rendering, none, none, none, some [partRendR1]⟩

/-- A split project whose only part is done (and whose project status is
already done). -/
def projDoneOnly : Project :=
  ⟨ProjStatus.done, none, none, none, some [partDoneR1]⟩

/-- A split project with one done part and one in-flight part. -/
def projMixed : Project :=
  ⟨ProjStatus.rendering, none, none, none, some [partDoneR1, partRendR2]⟩

/-- A split project containing only a zombie part. -/
def projZombie : Project :=
  ⟨ProjStatus.rendering, none, none, none, some [partZombie]⟩

/-- A project with no parts persisted yet. -/
def projFresh : Project := ⟨ProjStatus.rendering, none, none, none, none⟩

/-- A split project used by the aggregator witness: two done parts and one
in-flight part. -/
def projThirds : Project :=
  ⟨ProjStatus.rendering, none, none, none, some [partDoneR1, partDoneR1b, partRendR3]⟩

/-- A success webhook body for job handle r1. -/
def successBodyR1 : WebhookBody :=
  ⟨WebhookType.success, ⟨"r1", "outb", "k1", "", some "proj-1"⟩⟩

/-- An error webhook body for job handle r1. -/
def errorBodyR1 : WebhookBody :=
  ⟨WebhookType.error, ⟨"r1", "outb", "k1", "boom", some "proj-1"⟩⟩

/-- An error webhook body for job handle r2. -/
def errorBodyR2 : WebhookBody :=
  ⟨WebhookType.error, ⟨"r2", "outb", "k2", "boom", some "proj-1"⟩⟩

/-- An error webhook body whose job handle matches no part. -/
def errorBodyZZ : WebhookBody :=
  ⟨WebhookType.error, ⟨"zz", "outb", "k", "boom", some "proj-1"⟩⟩

/-- The project state after the success webhook for r1 has been applied to
`projSingleRendering`. -/
def afterSuccessR1 : Option Project :=
  (webhookPOST true true "us-east-1" successBodyR1 (some projSingleRendering)).2

/-- A rendering-service environment in which every progress query throws. -/
def envNone : PollEnv := fun _ => none

/-- A rendering-service environment reporting 40 percent progress for every
job, not complete and not fatal. -/
def envP40 : PollEnv := fun _ => some ⟨2 / 5, 0, 0, none, false⟩

/-- A submission environment in which every batch submission is accepted. -/
def submitAllOk : Nat → Except String SubmitOk :=
  fun i => Except.ok ⟨"r-" ++ toString (i + 1), "bkt"⟩

/-- A submission environment in which the first batch is accepted and every
later batch submission fails. -/
def submitSecondFails : Nat → Except String SubmitOk :=
  fun i => if i = 0 then Except.ok ⟨"r-1", "bkt"⟩ else Except.error "submission failed"

/-- Two one-scene batches worth of scenes. -/
def twoScenes : List Scene := [⟨some 5⟩, ⟨some 6⟩]

/-- The parts `submitAllOk` produces for `twoScenes` chunked at one scene
per batch. -/
def partsAllOk : List RenderPart :=
  [mkPart 0 [⟨some 5⟩] ⟨"r-1", "bkt"⟩, mkPart 1 [⟨some 6⟩] ⟨"r-2", "bkt"⟩]

/-! ### Generic lemmas -/

theorem findIndex_eq_none (p : α → Bool) (l : List α)
    (h : ∀ a ∈ l, p a = false) : findIndex p l = none := by
  induction l with
  | nil => rfl
  | cons x xs ih =>
    have hx := h x (List.mem_cons_self x xs)
    simp only [findIndex, hx, if_neg]
    rw [ih (fun a ha => h a (List.mem_cons_of_mem x ha))]
    simp

theorem findIndex_modifyAt (p : α → Bool) (f : α → α) (l : List α) (i : Nat)
    (h : findIndex p l = some i) (hf : ∀ a, p a = true → p (f a) = true) :
    findIndex p (modifyAt f i l) = some i := by
  induction l generalizing i with
  | nil => simp [findIndex] at h
  | cons x xs ih =>
    by_cases hx : p x = true
    · simp only [findIndex, hx, if_true] at h
      cases h
      simp [modifyAt, findIndex, hf x hx]
    · have hx' : p x = false := by simpa using hx
      simp only [findIndex, hx', Bool.false_eq_true, if_false] at h
      rcases Option.map_eq_some'.mp h with ⟨j, hj, rfl⟩
      simp only [modifyAt, findIndex, hx', Bool.false_eq_true, if_false]
      rw [ih j hj]
      rfl

theorem modifyAt_modifyAt (f g : α → α) (i : Nat) (l : List α) :
    modifyAt f i (modifyAt g i l) = modifyAt (fun a => f (g a)) i l := by
  induction l generalizing i with
  | nil => simp [modifyAt]
  | cons x xs ih =>
    cases i with
    | zero => simp [modifyAt]
    | succ n => simp [modifyAt, ih]

theorem getElem?_modifyAt_self (f : α → α) (i : Nat) (l : List α) :
    (modifyAt f i l)[i]? = (l[i]?).map f := by
  induction l generalizing i with
  | nil => simp [modifyAt]
  | cons x xs ih =>
    cases i with
    | zero => simp [modifyAt]
    | succ n => simpa [modifyAt] using ih n

theorem le_mul_ceilDiv (a b : Nat) (hb : 0 < b) : a ≤ b * ceilDiv a b := by
  unfold ceilDiv
  have hd := Nat.div_add_mod (a + b - 1) b
  have hm : (a + b - 1) % b < b := Nat.mod_lt _ hb
  set q := (a + b - 1) / b with hq
  set r := (a + b - 1) % b with hr
  set t := b * q with ht
  omega

theorem ceilDiv_of_pos (n M : Nat) (hM : 0 < M) (hn : 0 < n) :
    ceilDiv n M = 1 + ceilDiv (n - M) M := by
  by_cases h : n ≤ M
  · have h1 : n - M = 0 := by omega
    rw [h1]
    unfold ceilDiv
    have h2 : (0 + M - 1) / M = 0 := Nat.div_eq_of_lt (by omega)
    rw [h2]
    have h3 : (n + M - 1) / M = 1 := by
      apply Nat.div_eq_of_lt_le <;> omega
    omega
  · unfold ceilDiv
    have h1 : n + M - 1 = (n - M + M - 1) + M := by omega
    rw [h1, Nat.add_div_right _ hM]
    omega

theorem chunkScenes_length (M : Nat) (hM : M ≠ 0) :
    ∀ (n : Nat) (l : List α), l.length ≤ n →
      (chunkScenes M l).length = ceilDiv l.length M := by
  intro n
  induction n with
  | zero =>
    intro l hl
    have : l = [] := List.eq_nil_of_length_eq_zero (Nat.le_zero.mp hl)
    subst this
    rw [chunkScenes]
    simp only [List.length_nil, ceilDiv, List.length]
    exact (Nat.div_eq_of_lt (by omega)).symm
  | succ n ih =>
    intro l hl
    cases l with
    | nil =>
      rw [chunkScenes]
      simp only [List.length_nil, ceilDiv, List.length]
      exact (Nat.div_eq_of_lt (by omega)).symm
    | cons x xs =>
      rw [chunkScenes]
      simp only [if_neg hM, List.length_cons]
      have hlen : ((x :: xs).drop M).length ≤ n := by
        simp only [List.length_drop, List.length_cons]
        simp only [List.length_cons] at hl
        omega
      rw [ih _ hlen]
      simp only [List.length_drop, List.length_cons]
      rw [ceilDiv_of_pos (xs.length + 1) M (Nat.pos_of_ne_zero hM) (by omega)]
      omega

theorem chunkScenes_getElem? (M : Nat) (hM : M ≠ 0) :
    ∀ (i : Nat) (l : List α), i * M < l.length →
      (chunkScenes M l)[i]? = some ((l.drop (i * M)).take M) := by
  intro i
  induction i with
  | zero =>
    intro l hl
    cases l with
    | nil => simp at hl
    | cons x xs =>
      rw [chunkScenes]
      simp [if_neg hM]
  | succ j ih =>
    intro l hl
    cases l with
    | nil => simp at hl
    | cons x xs =>
      rw [chunkScenes]
      simp only [if_neg hM, List.getElem?_cons_succ]
      have hj : j * M < ((x :: xs).drop M).length := by
        simp only [List.length_drop, List.length_cons]
        have : (j + 1) * M = j * M + M := by ring
        simp only [List.length_cons] at hl
        omega
      rw [ih _ hj, List.drop_drop]
      have : M + j * M = (j + 1) * M := by ring
      rw [this]

theorem chunkScenes_join (M : Nat) (hM : M ≠ 0) :
    ∀ (n : Nat) (l : List α), l.length ≤ n → (chunkScenes M l).flatten = l := by
  intro n
  induction n with
  | zero =>
    intro l hl
    have : l = [] := List.eq_nil_of_length_eq_zero (Nat.le_zero.mp hl)
    subst this
    rw [chunkScenes]
    simp
  | succ n ih =>
    intro l hl
    cases l with
    | nil => rw [chunkScenes]; simp
    | cons x xs =>
      rw [chunkScenes]
      simp only [if_neg hM, List.flatten_cons]
      have hlen : ((x :: xs).drop M).length ≤ n := by
        simp only [List.length_drop, List.length_cons]
        simp only [List.length_cons] at hl
        omega
      rw [ih _ hlen, List.take_append_drop]

theorem chunkScenes_nil (M : Nat) : chunkScenes M ([] : List α) = [] := by
  rw [chunkScenes]

theorem chunkScenes_cons (M : Nat) (hM : M ≠ 0) (x : α) (xs : List α) :
    chunkScenes M (x :: xs) = (x :: xs).take M :: chunkScenes M ((x :: xs).drop M) := by
  rw [chunkScenes]
  simp [hM]

/-! ### Handler-specific lemmas -/

theorem successPart_renderId (u : String) (q : RenderPart) :
    (successPart u q).renderId = q.renderId := rfl

theorem applySuccess_idem (region : String) (pay : WebhookPayload)
    (db : Option Project) :
    applySuccess region pay (applySuccess region pay db)
      = applySuccess region pay db := by
  cases hpid : pay.projectId with
  | none => simp [applySuccess, hpid]
  | some pid =>
    cases db with
    | none => simp [applySuccess, hpid]
    | some project =>
      obtain ⟨st, vu, rid, bn, rp⟩ := project
      cases rp with
      | none => simp [applySuccess, hpid]
      | some parts =>
        cases hfi : findIndex (fun q => q.renderId == some pay.renderId) parts with
        | none => simp [applySuccess, hpid, hfi]
        | some idx =>
          have hpres : ∀ q : RenderPart,
              (q.renderId == some pay.renderId) = true →
              ((successPart (webhookVideoUrl region pay.outBucket pay.outKey) q).renderId
                == some pay.renderId) = true := by
            intro q hq
            exact hq
          have hfi2 := findIndex_modifyAt
            (fun q => q.renderId == some pay.renderId)
            (successPart (webhookVideoUrl region pay.outBucket pay.outKey))
            parts idx hfi hpres
          have hmm : modifyAt (successPart (webhookVideoUrl region pay.outBucket pay.outKey)) idx
                (modifyAt (successPart (webhookVideoUrl region pay.outBucket pay.outKey)) idx parts)
              = modifyAt (successPart (webhookVideoUrl region pay.outBucket pay.outKey)) idx parts := by
            rw [modifyAt_modifyAt]
            congr 1
          simp only [applySuccess, hpid, hfi, hfi2, hmm]
          by_cases hAll : (modifyAt (successPart (webhookVideoUrl region pay.outBucket pay.outKey))
              idx parts).all (fun q => q.status == PartStatus.done) = true
          · simp [hAll]
          · simp only [Bool.not_eq_true] at hAll
            simp [hAll]

theorem promiseAll_ok_parts (submit : Nat → Except String SubmitOk) (i : Nat)
    (chunks : List (List Scene)) (ps : List RenderPart)
    (h : promiseAll submit i chunks = Except.ok ps) :
    ∀ q ∈ ps, q.status = PartStatus.rendering ∧ q.renderId.isSome = true := by
  induction chunks generalizing i ps with
  | nil =>
    simp only [promiseAll] at h
    cases h
    simp
  | cons c rest ih =>
    simp only [promiseAll] at h
    cases hs : submit i with
    | error e => rw [hs] at h; exact absurd h (by simp)
    | ok r =>
      rw [hs] at h
      cases hr : promiseAll submit (i + 1) rest with
      | error e => rw [hr] at h; exact absurd h (by simp)
      | ok ps' =>
        rw [hr] at h
        cases h
        intro q hq
        rcases List.mem_cons.mp hq with rfl | hq'
        · exact ⟨rfl, rfl⟩
        · exact ih (i + 1) ps' hr q hq'

theorem pollPart_progress_eq (env : PollEnv) (region : String) (p : RenderPart)
    (hp : p.status = PartStatus.done ∨ p.status = PartStatus.error ∨
        (p.status = PartStatus.rendering ∧ truthyStr p.renderId = true ∧
         (env (p.renderId.getD "")).isSome = true)) :
    (pollPart env region p).progress = claimPartProgress env p := by
  rcases hp with hd | he | ⟨hr, ht, hs⟩
  · simp [pollPart, claimPartProgress, hd]
  · simp [pollPart, claimPartProgress, he]
  · obtain ⟨pr, hpr⟩ := Option.isSome_iff_exists.mp hs
    obtain ⟨pidf, pnum, pst, pbn, prid, purl, pprog, pfc, perr⟩ := p
    change pst = PartStatus.rendering at hr
    change truthyStr prid = true at ht
    change env (prid.getD "") = some pr at hpr
    subst hr
    simp [pollPart, claimPartProgress, ht, hpr]
    split
    · rfl
    · split <;> rfl

theorem pollPart_status_ne_done (env : PollEnv) (region : String) (p : RenderPart)
    (hr : p.status = PartStatus.rendering)
    (hinc : ∀ pr, env (p.renderId.getD "") = some pr →
        pr.overallProgress < 1 ∧ pr.outputFile = none) :
    (pollPart env region p).part.status ≠ PartStatus.done := by
  obtain ⟨pidf, pnum, pst, pbn, prid, purl, pprog, pfc, perr⟩ := p
  change pst = PartStatus.rendering at hr
  subst hr
  by_cases ht : truthyStr prid = true
  · cases hpr : env (prid.getD "") with
    | none => simp [pollPart, ht, hpr]
    | some pr =>
      obtain ⟨hog, hout⟩ := hinc pr hpr
      have hc : ¬ (1 ≤ pr.overallProgress ∨ truthyStr pr.outputFile = true) := by
        rintro (h | h)
        · exact absurd h (not_le.mpr hog)
        · rw [hout] at h
          exact absurd h (by decide)
      simp [pollPart, ht, hpr, hc]
      split <;> simp
  · have ht2 : truthyStr prid = false := by simpa using ht
    simp [pollPart, ht2]

/-! ### Claim theorems -/

/-- Claim C5: for an ordered scene list of length N and split threshold M
with N > M, the chunking loop produces exactly ceil(N/M) batches, batch k
(0-based here) is exactly the contiguous slice starting at k·M of length at
most M, and the batches partition the scene list in order (their
concatenation is the original list). -/
theorem chunker_partition (M : Nat) (l : List α) (hM : 0 < M)
    (hNM : M < l.length) :
    (chunkScenes M l).length = ceilDiv l.length M
    ∧ (∀ i, i * M < l.length →
        (chunkScenes M l)[i]? = some ((l.drop (i * M)).take M))
    ∧ (chunkScenes M l).flatten = l := by
  refine ⟨chunkScenes_length M (by omega) l.length l le_rfl, ?_, ?_⟩
  · intro i hi
    exact chunkScenes_getElem? M (by omega) i l hi
  · exact chunkScenes_join M (by omega) l.length l le_rfl

/-- Witness for C5 at M = 2 and a five-element scene list. -/
theorem chunker_partition_witness :
    0 < 2 ∧ 2 < ([0, 1, 2, 3, 4] : List Nat).length
    ∧ ((chunkScenes 2 ([0, 1, 2, 3, 4] : List Nat)).length
          = ceilDiv ([0, 1, 2, 3, 4] : List Nat).length 2
        ∧ (∀ i, i * 2 < ([0, 1, 2, 3, 4] : List Nat).length →
            (chunkScenes 2 ([0, 1, 2, 3, 4] : List Nat))[i]?
              = some ((([0, 1, 2, 3, 4] : List Nat).drop (i * 2)).take 2))
        ∧ (chunkScenes 2 ([0, 1, 2, 3, 4] : List Nat)).flatten = [0, 1, 2, 3, 4]) :=
  ⟨by decide, by decide, chunker_partition 2 [0, 1, 2, 3, 4] (by decide) (by decide)⟩

/-- Claim C6: the computed frames-per-lambda equals
max(60, ceil(totalFrames/200), ceil(totalFrames/targetParallelism)), is at
least 60, and keeps totalFrames / framesPerLambda at or below the hard
200-job ceiling. -/
theorem framesPerLambda_bounds (tc tf : Nat) (htf : 1 ≤ tf) (htc : 0 < tc) :
    framesPerLambda tc tf = max 60 (max (ceilDiv tf 200) (ceilDiv tf tc))
    ∧ 60 ≤ framesPerLambda tc tf
    ∧ (tf : ℚ) / (framesPerLambda tc tf : ℚ) ≤ 200 := by
  refine ⟨rfl, le_max_left _ _, ?_⟩
  have h1 : ceilDiv tf 200 ≤ framesPerLambda tc tf :=
    le_trans (le_max_left _ _) (le_max_right 60 _)
  have h2 : tf ≤ 200 * framesPerLambda tc tf :=
    le_trans (le_mul_ceilDiv tf 200 (by omega)) (Nat.mul_le_mul_left _ h1)
  have h60 : 60 ≤ framesPerLambda tc tf := le_max_left _ _
  have hpos : (0 : ℚ) < (framesPerLambda tc tf : ℚ) := by
    exact_mod_cast (by omega : 0 < framesPerLambda tc tf)
  rw [div_le_iff₀ hpos]
  calc (tf : ℚ) = ((tf : Nat) : ℚ) := by norm_cast
    _ ≤ ((200 * framesPerLambda tc tf : Nat) : ℚ) := by exact_mod_cast h2
    _ = 200 * (framesPerLambda tc tf : ℚ) := by push_cast; ring

/-- Witness for C6 at targetParallelism 100 and 45000 total frames. -/
theorem framesPerLambda_bounds_witness :
    1 ≤ 45000 ∧ 0 < 100
    ∧ (framesPerLambda 100 45000
          = max 60 (max (ceilDiv 45000 200) (ceilDiv 45000 100))
        ∧ 60 ≤ framesPerLambda 100 45000
        ∧ (45000 : ℚ) / (framesPerLambda 100 45000 : ℚ) ≤ 200) :=
  ⟨by decide, by decide, framesPerLambda_bounds 100 45000 (by decide) (by decide)⟩

/-- Claim C8: a webhook request with a missing signature header, or one
whose signature does not verify, is answered with HTTP 401 and leaves the
persisted project record exactly as it was, for every body and every
starting state. -/
theorem webhook_bad_signature_no_mutation (sigValid : Bool) (region : String)
    (body : WebhookBody) (db : Option Project) :
    webhookPOST false sigValid region body db = (⟨401, "Missing signature", false⟩, db)
    ∧ webhookPOST true false region body db = (⟨401, "Unauthorized", false⟩, db) :=
  ⟨rfl, rfl⟩

/-- Claim C7: applying the same success webhook twice yields exactly the
same persisted state as applying it once, for every payload and starting
state. -/
theorem webhook_success_idempotent (region : String) (pay : WebhookPayload)
    (db : Option Project) :
    (webhookPOST true true region ⟨WebhookType.success, pay⟩
        ((webhookPOST true true region ⟨WebhookType.success, pay⟩ db).2)).2
      = (webhookPOST true true region ⟨WebhookType.success, pay⟩ db).2 := by
  simp only [webhookPOST]
  exact applySuccess_idem region pay db

/-- Claim C10: for a split project, a verified success / error / timeout
webhook whose payload renderId matches no part's renderId leaves the
persisted record unchanged and still acknowledges with HTTP 200. -/
theorem webhook_unmatched_noop (region : String) (body : WebhookBody)
    (project : Project) (parts : List RenderPart)
    (hty : body.type ≠ WebhookType.other)
    (hrp : project.renderParts = some parts)
    (hnm : ∀ p ∈ parts, p.renderId ≠ some body.payload.renderId) :
    webhookPOST true true region body (some project) = (⟨200, "", true⟩, some project) := by
  have hfi : findIndex (fun q => q.renderId == some body.payload.renderId) parts = none := by
    apply findIndex_eq_none
    intro a ha
    exact beq_eq_false_iff_ne.mpr (hnm a ha)
  obtain ⟨st, vu, rid, bn, rp⟩ := project
  change rp = some parts at hrp
  subst hrp
  obtain ⟨ty, pay⟩ := body
  cases hpid : pay.projectId with
  | none =>
    cases ty with
    | success => simp [webhookPOST, applySuccess, hpid]
    | error => simp [webhookPOST, applyFailure, hpid]
    | timeout => simp [webhookPOST, applyFailure, hpid]
    | other => exact absurd rfl hty
  | some pid =>
    cases ty with
    | success => simp [webhookPOST, applySuccess, hpid, hfi]
    | error => simp [webhookPOST, applyFailure, hpid, hfi]
    | timeout => simp [webhookPOST, applyFailure, hpid, hfi]
    | other => exact absurd rfl hty

/-- Witness for C10: an error webhook for an unknown job handle leaves the
mixed project untouched and is acknowledged. -/
theorem webhook_unmatched_noop_witness :
    errorBodyZZ.type ≠ WebhookType.other
    ∧ projMixed.renderParts = some [partDoneR1, partRendR2]
    ∧ (∀ p ∈ [partDoneR1, partRendR2], p.renderId ≠ some errorBodyZZ.payload.renderId)
    ∧ webhookPOST true true "us-east-1" errorBodyZZ (some projMixed)
        = (⟨200, "", true⟩, some projMixed) :=
  ⟨by decide, by decide, by decide,
   webhook_unmatched_noop "us-east-1" errorBodyZZ projMixed [partDoneR1, partRendR2]
     (by decide) (by decide) (by decide)⟩

/-- Claim C1 (amended): a terminal error / timeout webhook whose renderId
matches a part sets that part's status to `error` regardless of its current
status — in particular a part already `done` is downgraded — and sets the
project status to `error`; only the matched part's status field changes
(its url is retained). -/
theorem webhook_error_overwrites_part (region : String) (body : WebhookBody)
    (project : Project) (parts : List RenderPart) (idx : Nat)
    (hty : body.type = WebhookType.error ∨ body.type = WebhookType.timeout)
    (hpid : (body.payload.projectId).isSome = true)
    (hrp : project.renderParts = some parts)
    (hfi : findIndex (fun q => q.renderId == some body.payload.renderId) parts
        = some idx) :
    (webhookPOST true true region body (some project)).2
      = some { project with
               status := ProjStatus.error,
               renderParts := some (modifyAt failPart idx parts) }
    ∧ (modifyAt failPart idx parts)[idx]? = (parts[idx]?).map failPart := by
  refine ⟨?_, getElem?_modifyAt_self failPart idx parts⟩
  obtain ⟨pid, hpid2⟩ := Option.isSome_iff_exists.mp hpid
  obtain ⟨st, vu, rid, bn, rp⟩ := project
  change rp = some parts at hrp
  subst hrp
  obtain ⟨ty, pay⟩ := body
  rcases hty with h | h
  · cases h
    change pay.projectId = some pid at hpid2
    simp [webhookPOST, applyFailure, hpid2, hfi]
  · cases h
    change pay.projectId = some pid at hpid2
    simp [webhookPOST, applyFailure, hpid2, hfi]

/-- Witness for the amended C1: the error webhook for r1 applied to a
project whose only part (handle r1) is done. -/
theorem webhook_error_overwrites_part_witness :
    (errorBodyR1.type = WebhookType.error ∨ errorBodyR1.type = WebhookType.timeout)
    ∧ (errorBodyR1.payload.projectId).isSome = true
    ∧ projDoneOnly.renderParts = some [partDoneR1]
    ∧ findIndex (fun q => q.renderId == some errorBodyR1.payload.renderId) [partDoneR1]
        = some 0
    ∧ ((webhookPOST true true "us-east-1" errorBodyR1 (some projDoneOnly)).2
        = some { projDoneOnly with
                 status := ProjStatus.error,
                 renderParts := some (modifyAt failPart 0 [partDoneR1]) }
      ∧ (modifyAt failPart 0 [partDoneR1])[0]? = ([partDoneR1][0]?).map failPart) :=
  ⟨by decide, by decide, by decide, by decide,
   webhook_error_overwrites_part "us-east-1" errorBodyR1 projDoneOnly [partDoneR1] 0
     (by decide) (by decide) (by decide) (by decide)⟩

/-- Counterexample to C1 as stated: after a success webhook for r1 the part
is `done`; a subsequent error webhook for the same handle does change the
persisted state — the part does not stay `done`, it becomes `error`. -/
theorem webhook_error_after_success_cex :
    partStatuses afterSuccessR1 = some [PartStatus.done]
    ∧ partStatuses (webhookPOST true true "us-east-1" errorBodyR1 afterSuccessR1).2
        = some [PartStatus.error]
    ∧ partStatuses (webhookPOST true true "us-east-1" errorBodyR1 afterSuccessR1).2
        ≠ some [PartStatus.done] :=
  ⟨by decide, by decide, by decide⟩

/-- Claim C2 (amended): a terminal error / timeout webhook whose renderId
matches any one part of a split project sets the project-level status to
`error` immediately, even while sibling parts are still `rendering` or
`done`: partial failure is collapsed into a project-level error. -/
theorem webhook_partial_failure_collapses (region : String) (body : WebhookBody)
    (project : Project) (parts : List RenderPart) (idx : Nat)
    (hty : body.type = WebhookType.error ∨ body.type = WebhookType.timeout)
    (hpid : (body.payload.projectId).isSome = true)
    (hrp : project.renderParts = some parts)
    (hfi : findIndex (fun q => q.renderId == some body.payload.renderId) parts
        = some idx)
    (hsib : ∃ j q, j ≠ idx ∧ parts[j]? = some q ∧
        (q.status = PartStatus.rendering ∨ q.status = PartStatus.done)) :
    ((webhookPOST true true region body (some project)).2).map Project.status
      = some ProjStatus.error := by
  obtain ⟨pid, hpid2⟩ := Option.isSome_iff_exists.mp hpid
  obtain ⟨st, vu, rid, bn, rp⟩ := project
  change rp = some parts at hrp
  subst hrp
  obtain ⟨ty, pay⟩ := body
  change pay.projectId = some pid at hpid2
  rcases hty with h | h
  · cases h
    simp [webhookPOST, applyFailure, hpid2, hfi]
  · cases h
    simp [webhookPOST, applyFailure, hpid2, hfi]

/-- Witness for the amended C2: error webhook for r2 on a project with one
done sibling and one rendering part. -/
theorem webhook_partial_failure_collapses_witness :
    (errorBodyR2.type = WebhookType.error ∨ errorBodyR2.type = WebhookType.timeout)
    ∧ (errorBodyR2.payload.projectId).isSome = true
    ∧ projMixed.renderParts = some [partDoneR1, partRendR2]
    ∧ findIndex (fun q => q.renderId == some errorBodyR2.payload.renderId)
        [partDoneR1, partRendR2] = some 1
    ∧ (∃ j q, j ≠ 1 ∧ [partDoneR1, partRendR2][j]? = some q ∧
        (q.status = PartStatus.rendering ∨ q.status = PartStatus.done))
    ∧ ((webhookPOST true true "us-east-1" errorBodyR2 (some projMixed)).2).map
        Project.status = some ProjStatus.error :=
  ⟨by decide, by decide, by decide, by decide,
   ⟨0, partDoneR1, by decide, by decide, Or.inr rfl⟩,
   webhook_partial_failure_collapses "us-east-1" errorBodyR2 projMixed
     [partDoneR1, partRendR2] 1 (by decide) (by decide) (by decide) (by decide)
     ⟨0, partDoneR1, by decide, by decide, Or.inr rfl⟩⟩

/-- Counterexample to C2 as stated: the project starts `rendering` with
parts [done, rendering]; the error webhook for the still-rendering part r2
flips the project-level status to `error` even though the sibling part is
done. -/
theorem webhook_partial_failure_cex :
    projMixed.status = ProjStatus.rendering
    ∧ partStatuses (some projMixed) = some [PartStatus.done, PartStatus.rendering]
    ∧ ((webhookPOST true true "us-east-1" errorBodyR2 (some projMixed)).2).map
        Project.status = some ProjStatus.error
    ∧ ((webhookPOST true true "us-east-1" errorBodyR2 (some projMixed)).2).map
        Project.status ≠ some ProjStatus.rendering :=
  ⟨by decide, by decide, by decide, by decide⟩

/-- Claim C3 (amended): a part with status `rendering` and an empty or
absent renderId is simply skipped by the reconciliation loop: the pass
issues no query to the rendering service for it, flags no update, and
leaves the part — including its `rendering` status — unchanged; it is not
forced to `error`. -/
theorem zombie_part_untouched (env : PollEnv) (region : String) (p : RenderPart)
    (hr : p.status = PartStatus.rendering)
    (ht : truthyStr p.renderId = false) :
    pollPart env region p = ⟨p, 0, false, []⟩ := by
  have h1 : ¬ p.status = PartStatus.done := by rw [hr]; decide
  have h2 : ¬ p.status = PartStatus.error := by rw [hr]; decide
  unfold pollPart
  rw [if_neg h1, if_neg h2, if_neg (by simp [ht])]

/-- Witness for the amended C3: the zombie part is skipped by the loop even
when every query would throw. -/
theorem zombie_part_untouched_witness :
    partZombie.status = PartStatus.rendering
    ∧ truthyStr partZombie.renderId = false
    ∧ pollPart envNone "us-east-1" partZombie = ⟨partZombie, 0, false, []⟩ :=
  ⟨by decide, by decide,
   zombie_part_untouched envNone "us-east-1" partZombie (by decide) (by decide)⟩

/-- Counterexample to C3 as stated: one full reconciliation pass of the
status endpoint over a project whose only part is a rendering zombie leaves
the persisted record identical — the part stays `rendering`; it is not
forced to `error`. -/
theorem zombie_not_corrected_cex :
    (statusGET envNone "us-east-1" none projZombie).2 = projZombie
    ∧ partStatuses (some (statusGET envNone "us-east-1" none projZombie).2)
        = some [PartStatus.rendering]
    ∧ partStatuses (some (statusGET envNone "us-east-1" none projZombie).2)
        ≠ some [PartStatus.error] :=
  ⟨by decide, by decide, by decide⟩

/-- Evaluation helper: chunking the two fixture scenes one per batch. -/
theorem chunk_twoScenes :
    chunkScenes 1 twoScenes = [[(⟨some 5⟩ : Scene)], [(⟨some 6⟩ : Scene)]] := by
  show chunkScenes 1 [(⟨some 5⟩ : Scene), ⟨some 6⟩] = _
  rw [chunkScenes_cons 1 one_ne_zero]
  show [(⟨some 5⟩ : Scene)] :: chunkScenes 1 [(⟨some 6⟩ : Scene)] = _
  rw [chunkScenes_cons 1 one_ne_zero]
  show [(⟨some 5⟩ : Scene)] :: [(⟨some 6⟩ : Scene)] :: chunkScenes 1 ([] : List Scene) = _
  rw [chunkScenes_nil]

/-- Claim C4 (amended): batch submissions are concurrent but persistence is
all-or-nothing.  If every batch submission is accepted, each batch is
persisted as a RenderPart with status `rendering` and a job handle; if any
batch submission fails, the whole dispatch fails over to the catch
handler — the project status is set to `error` and no RenderPart is
persisted for any batch (the settings, including any prior `renderParts`,
are left unchanged). -/
theorem dispatchSplit_outcomes (submit : Nat → Except String SubmitOk)
    (scenes : List Scene) (maxScenes : Nat) (project : Project) :
    (∀ ps, promiseAll submit 0 (chunkScenes maxScenes scenes) = Except.ok ps →
        dispatchSplit submit scenes maxScenes project
          = (⟨200, true, none⟩,
             { project with status := ProjStatus.rendering, renderParts := some ps })
        ∧ ∀ q ∈ ps, q.status = PartStatus.rendering ∧ q.renderId.isSome = true)
    ∧ (∀ e, promiseAll submit 0 (chunkScenes maxScenes scenes) = Except.error e →
        dispatchSplit submit scenes maxScenes project
          = (⟨500, false, some e⟩, { project with status := ProjStatus.error })) := by
  constructor
  · intro ps hps
    refine ⟨?_, promiseAll_ok_parts submit 0 _ ps hps⟩
    simp [dispatchSplit, hps]
  · intro e he
    simp [dispatchSplit, he]

/-- Witness for the amended C4: with both submissions accepted, both parts
are persisted as rendering with their job handles. -/
theorem dispatchSplit_outcomes_witness :
    promiseAll submitAllOk 0 (chunkScenes 1 twoScenes) = Except.ok partsAllOk
    ∧ (dispatchSplit submitAllOk twoScenes 1 projFresh
        = (⟨200, true, none⟩,
           { projFresh with status := ProjStatus.rendering, renderParts := some partsAllOk })
      ∧ ∀ q ∈ partsAllOk, q.status = PartStatus.rendering ∧ q.renderId.isSome = true) := by
  have hok : promiseAll submitAllOk 0 (chunkScenes 1 twoScenes) = Except.ok partsAllOk := by
    rw [chunk_twoScenes]
    rfl
  exact ⟨hok, (dispatchSplit_outcomes submitAllOk twoScenes 1 projFresh).1 partsAllOk hok⟩

/-- Counterexample to C4 as stated: chunking two scenes at one scene per
batch, the first submission is accepted but the second fails; the final
persisted project has NO renderParts at all — the accepted batch was not
persisted as a rendering part — and the project status is `error`. -/
theorem dispatchSplit_rollback_cex :
    submitSecondFails 0 = Except.ok ⟨"r-1", "bkt"⟩
    ∧ (dispatchSplit submitSecondFails twoScenes 1 projFresh).2.renderParts = none
    ∧ (dispatchSplit submitSecondFails twoScenes 1 projFresh).2.status
        = ProjStatus.error
    ∧ (dispatchSplit submitSecondFails twoScenes 1 projFresh).1.httpStatus = 500 := by
  have herr : promiseAll submitSecondFails 0 (chunkScenes 1 twoScenes)
      = Except.error "submission failed" := by
    rw [chunk_twoScenes]
    rfl
  refine ⟨rfl, ?_, ?_, ?_⟩ <;> simp [dispatchSplit, herr, projFresh]

/-- Claim C9: for a non-empty part collection (every part done, error, or
rendering with a pollable job), the reconciliation pass reports overall
progress equal to the arithmetic mean of per-part progress — done counts 1,
error counts 0, rendering counts its fractional progress — and, as long as
some part is still rendering and not complete, neither the reported status
nor the persisted status becomes `done`. -/
theorem aggregator_mean (env : PollEnv) (region : String) (envBucket : Option String)
    (project : Project) (parts : List RenderPart)
    (h1 : project.status ≠ ProjStatus.done)
    (h2 : project.status ≠ ProjStatus.error)
    (hrp : project.renderParts = some parts)
    (hne : parts ≠ [])
    (hcond : ∀ p ∈ parts, p.status = PartStatus.done ∨ p.status = PartStatus.error ∨
        (p.status = PartStatus.rendering ∧ truthyStr p.renderId = true ∧
         (env (p.renderId.getD "")).isSome = true))
    (hincomp : ∃ p ∈ parts, p.status = PartStatus.rendering ∧
        ∀ pr, env (p.renderId.getD "") = some pr →
          pr.overallProgress < 1 ∧ pr.outputFile = none) :
    (statusGET env region envBucket project).1.progress
        = (parts.map (claimPartProgress env)).sum / (parts.length : ℚ)
    ∧ (statusGET env region envBucket project).1.status ≠ ProjStatus.done
    ∧ (statusGET env region envBucket project).2.status ≠ ProjStatus.done := by
  have hlen : 0 < parts.length := List.length_pos.mpr hne
  obtain ⟨st, vu, rid, bn, rp⟩ := project
  change st ≠ ProjStatus.done at h1
  change st ≠ ProjStatus.error at h2
  change rp = some parts at hrp
  subst hrp
  obtain ⟨p0, hp0m, hp0r, hp0i⟩ := hincomp
  have hq0 : (pollPart env region p0).part.status ≠ PartStatus.done :=
    pollPart_status_ne_done env region p0 hp0r hp0i
  have hmem : (pollPart env region p0).part
      ∈ (parts.map (pollPart env region)).map (fun x => x.part) := by
    rw [List.map_map]
    exact List.mem_map_of_mem _ hp0m
  have hallDone : ((parts.map (pollPart env region)).map (fun x => x.part)).all
      (fun q => q.status == PartStatus.done) = false :=
    List.all_eq_false.mpr ⟨_, hmem, fun h => hq0 (beq_iff_eq.mp h)⟩
  have hsum : ((parts.map (pollPart env region)).map (fun x => x.progress)).sum
      = (parts.map (claimPartProgress env)).sum := by
    rw [List.map_map]
    exact congrArg List.sum
      (List.map_congr_left (fun p hp => pollPart_progress_eq env region p (hcond p hp)))
  refine ⟨?_, ?_, ?_⟩
  · simp only [statusGET, if_neg h1, if_neg h2]
    rw [if_pos hlen, hsum]
  · simp only [statusGET, if_neg h1, if_neg h2]
    exact h1
  · simp only [statusGET, if_neg h1, if_neg h2]
    by_cases hu : (parts.map (pollPart env region)).any (fun x => x.updated) = true
    · simp only [hu, if_true, hallDone]
      simpa using h1
    · have hu2 : (parts.map (pollPart env region)).any (fun x => x.updated) = false := by
        simpa using hu
      simp only [hu2]
      simpa using h1

/-- Witness for C9 at per-part progress [1, 1, 0.4]: the reported overall
progress is 0.8 and the project is not done. -/
theorem aggregator_mean_witness :
    projThirds.status ≠ ProjStatus.done
    ∧ projThirds.status ≠ ProjStatus.error
    ∧ projThirds.renderParts = some [partDoneR1, partDoneR1b, partRendR3]
    ∧ ([partDoneR1, partDoneR1b, partRendR3] : List RenderPart) ≠ []
    ∧ ((statusGET envP40 "us-east-1" none projThirds).1.progress
          = ([partDoneR1, partDoneR1b, partRendR3].map (claimPartProgress envP40)).sum
              / (([partDoneR1, partDoneR1b, partRendR3] : List RenderPart).length : ℚ)
      ∧ (statusGET envP40 "us-east-1" none projThirds).1.status ≠ ProjStatus.done
      ∧ (statusGET envP40 "us-east-1" none projThirds).2.status ≠ ProjStatus.done)
    ∧ (statusGET envP40 "us-east-1" none projThirds).1.progress = 4 / 5 := by
  have hcond : ∀ p ∈ ([partDoneR1, partDoneR1b, partRendR3] : List RenderPart),
      p.status = PartStatus.done ∨ p.status = PartStatus.error ∨
        (p.status = PartStatus.rendering ∧ truthyStr p.renderId = true ∧
         (envP40 (p.renderId.getD "")).isSome = true) := by decide
  have hincomp : ∃ p ∈ ([partDoneR1, partDoneR1b, partRendR3] : List RenderPart),
      p.status = PartStatus.rendering ∧
      ∀ pr, envP40 (p.renderId.getD "") = some pr →
        pr.overallProgress < 1 ∧ pr.outputFile = none := by
    refine ⟨partRendR3, by decide, by decide, ?_⟩
    intro pr hpr
    have hpr2 : some (⟨2 / 5, 0, 0, none, false⟩ : PollProgress) = some pr := hpr
    injection hpr2 with h
    subst h
    exact ⟨by norm_num, rfl⟩
  have hmain := aggregator_mean envP40 "us-east-1" none projThirds
    [partDoneR1, partDoneR1b, partRendR3] (by decide) (by decide) rfl (by decide)
    hcond hincomp
  refine ⟨by decide, by decide, rfl, by decide, hmain, ?_⟩
  rw [hmain.1]
  simp [claimPartProgress, partDoneR1, partDoneR1b, partRendR3, envP40]
  norm_num
